import Mathlib

/-!
Shallow embedding of the assembler core in `src/subc/asm/asm.go`
(package `asm` of gosubc): the section/symbol/relocation bookkeeping
engine.  Go pointer sharing is modelled by explicit heaps (lists
indexed by `Nat` ids) for symbols, sections and relocations; the Go
map `syms` is an association list; fatal `errorf`/panic aborts are
modelled by `Except String`.
-/

namespace Gosubc

/-- Addressing-mode tags (`aNONE` .. `aSECT` in asm.go). -/
def aNONE : Nat := 0
def aREG : Nat := 1
def aVAR : Nat := 2
def aPTR : Nat := 3
def aMEM : Nat := 4
def aINT : Nat := 5
def aSTR : Nat := 6
def aNOTE : Nat := 7
def aSECT : Nat := 8

/-- Symbol type tags (`sNONE` .. `sUND` in asm.go). -/
def sNONE : Nat := 0
def sLABEL : Nat := 1
def sBSS : Nat := 2
def sUND : Nat := 3

/-- Relocation type tags (`lN` .. `lV` in asm.go). -/
def lN : Nat := 0

/-- Section type tags (`stNONE` .. `stSTRTAB` in asm.go). -/
def stNONE : Nat := 0
def stNOTE : Nat := 1
def stPROGBITS : Nat := 2
def stNOBITS : Nat := 3
def stSYMTAB : Nat := 4
def stSTRTAB : Nat := 5

/-- Generic ops (`opNOP` .. `opBYTES` in asm.go). -/
def opNOP : Nat := 0
def opSTRZ : Nat := 1
def opBYTES : Nat := 6

/-- Structure `addr` — an argument of an instruction (asm.go `addr`). -/
structure addr where
  typ : Nat := 0
  reg : Nat := 0
  ival : Int := 0
  sval : String := ""
  deref : Bool := false
  deriving Repr, DecidableEq

/-- Structure `inst` — an instruction record (asm.go `inst`); bytes are `Nat < 256`.
The Go `[4]addr` operand array is carried as a list. -/
structure inst where
  op : Nat := 0
  addr : List addr := []
  code : List Nat := []
  deriving Repr, DecidableEq

/-- Structure `span` — a byte range for a placed string (asm.go `span`). -/
structure span where
  off : Int := 0
  size : Int := 0
  pc : Int := 0
  deriving Repr, DecidableEq

/-- Structure `sym` — a symbol record (asm.go `sym`).  `sect` is an id into the
section heap; `none` models a Go nil section pointer. -/
structure sym where
  sect : Option Nat := none
  typ : Nat := sNONE
  name : String := ""
  size : Int := 0
  off : Int := 0
  pc : Int := 0
  allocated : Bool := false
  exported : Bool := false
  deriving Repr, DecidableEq

/-- Structure `relocation` (asm.go `relocation`): the owning section and the
placeholder instruction are identified by the section id and the index
of the instruction in that section's stream. -/
structure relocation where
  sectionId : Nat := 0
  instIdx : Nat := 0
  off : Int := 0
  pc : Int := 0
  isize : Nat := 0
  reltyp : Nat := lN
  relname : String := ""
  rel : Int := 0
  deriving Repr, DecidableEq

/-- Structure `sect` (asm.go `section`).  Symbol lists hold symbol ids,
`relocs` holds relocation ids. -/
structure sect where
  name : String := ""
  flags : String := ""
  typ : Nat := stNONE
  inst : List inst := []
  syms : List Nat := []
  vars : List Nat := []
  labels : List Nat := []
  blocks : List Nat := []
  strings : List span := []
  relocs : List Nat := []
  size : Int := 0
  blockalign : Int := 0
  blocksize : Int := 0
  pc : Int := 0
  deriving Repr, DecidableEq

/-- Function `newsection` (asm.go). -/
def newsection (name flags : String) (typ : Nat) : sect :=
  { name := name, flags := flags, typ := typ }

/-- Structure `prog` (asm.go `prog`): all sections live in `sectHeap`; ids 0, 1, 2
are `.text`, `.data`, `.bss`; `sects` lists the user-defined section ids.
`symHeap` / `relocHeap` hold the symbol and relocation records that Go
shares by pointer. -/
structure prog where
  arch : String := ""
  os : String := ""
  littleEndian : Bool := true
  sectHeap : List sect := []
  sects : List Nat := []
  syms : List (String × Nat) := []
  symHeap : List sym := []
  osyms : List Nat := []
  usyms : List Nat := []
  relocs : List Nat := []
  relocHeap : List relocation := []
  deriving Repr, DecidableEq

/-- Id of the predefined `.text` section. -/
def textId : Nat := 0
/-- Id of the predefined `.data` section. -/
def dataId : Nat := 1
/-- Id of the predefined `.bss` section. -/
def bssId : Nat := 2

/-- Function `newprog` (asm.go): empty program with the three predefined sections. -/
def newprog (arch os_ : String) : prog :=
  { arch := arch
    os := os_
    littleEndian := true
    sectHeap :=
      [newsection ".text" "ax" stPROGBITS,
       newsection ".data" "wa" stPROGBITS,
       newsection ".bss" "wa" stNOBITS] }

/-- Structure `As` (asm.go `as`): the generic assembler state; `sectId` is the
current section (Go `as.sect`). -/
structure As where
  prg : prog := {}
  sectId : Nat := textId
  deriving Repr, DecidableEq

/-- Read a section from the heap (dereference a Go section pointer). -/
def getSect (a : As) (i : Nat) : sect := a.prg.sectHeap.getD i {}

/-- Read a symbol from the heap (dereference a Go symbol pointer). -/
def getSym (a : As) (i : Nat) : sym := a.prg.symHeap.getD i {}

/-- Read a relocation from the heap. -/
def getReloc (a : As) (i : Nat) : relocation := a.prg.relocHeap.getD i {}

/-- The current section of the assembler state (Go `as.sect`). -/
def As.curSect (a : As) : sect := getSect a a.sectId

/-- Mutate the section with id `i` in place (a Go write through a
section pointer). -/
def As.updSect (a : As) (i : Nat) (f : sect → sect) : As :=
  { a with prg := { a.prg with sectHeap := a.prg.sectHeap.set i (f (getSect a i)) } }

/-- Mutate the symbol with id `i` in place (a Go write through a
symbol pointer). -/
def As.updSym (a : As) (i : Nat) (f : sym → sym) : As :=
  { a with prg := { a.prg with symHeap := a.prg.symHeap.set i (f (getSym a i)) } }

/-- The variadic payload values accepted by `as.code` (Go `interface{}`
arguments): `vnil` is an untyped nil, `vother` stands for any value of
a type outside the switch (carrying a description of that type). -/
inductive EmitVal where
  | vnil
  | vbyte (b : Nat)
  | vint (i : Int)
  | vu16 (n : Nat)
  | vu32 (n : Nat)
  | vu64 (n : Nat)
  | vother (desc : String)
  deriving Repr, DecidableEq

/-- Little-endian byte encoding of the low `w` bytes of `n`
(`binary.Write` with `binary.LittleEndian`). -/
def leBytes : Nat → Nat → List Nat
  | 0, _ => []
  | w + 1, n => n % 256 :: leBytes w (n / 256)

/-- Byte encoding of a fixed-width integer in the target byte order. -/
def fixedBytes (little : Bool) (w n : Nat) : List Nat :=
  if little then leBytes w n else (leBytes w n).reverse

/-- Function `as.code` (asm.go): encode the payload values left to right;
a value of an unsupported kind is a fatal `errorf` ("unknown emit
type"). Go `byte(v)` truncation of an `int` is `emod 256`. -/
def codeVals (little : Bool) : List EmitVal → Except String (List Nat)
  | [] => .ok []
  | .vnil :: vs => codeVals little vs
  | .vbyte b :: vs => (codeVals little vs).map fun r => b % 256 :: r
  | .vint i :: vs => (codeVals little vs).map fun r => (i.emod 256).toNat :: r
  | .vu16 n :: vs => (codeVals little vs).map fun r => fixedBytes little 2 n ++ r
  | .vu32 n :: vs => (codeVals little vs).map fun r => fixedBytes little 4 n ++ r
  | .vu64 n :: vs => (codeVals little vs).map fun r => fixedBytes little 8 n ++ r
  | .vother d :: _ => .error ("unknown emit type " ++ d)

/-- The number of bytes each payload value kind contributes to the
encoded buffer of `as.code`. -/
def emitWidth : EmitVal → Nat
  | .vnil => 0
  | .vbyte _ => 1
  | .vint _ => 1
  | .vu16 _ => 2
  | .vu32 _ => 4
  | .vu64 _ => 8
  | .vother _ => 0

/-- Function `as.emit` (asm.go): encode the payload, append one instruction
record to the current section and grow its byte size by the payload
length. -/
def As.emit (a : As) (op : Nat) (addrs : List addr) (vs : List EmitVal) :
    Except String As :=
  match codeVals a.prg.littleEndian vs with
  | .error e => .error e
  | .ok code =>
      .ok (a.updSect a.sectId fun s =>
        { s with inst := s.inst ++ [{ op := op, addr := addrs, code := code }]
                 size := s.size + code.length })

/-- Function `as.gsym` (asm.go): look the name up in the global map; if absent,
create a fresh untyped symbol attached to section `sId`, insert it
into the map and the declaration-order list.  Returns the (possibly
new) symbol id. -/
def As.gsym (a : As) (name : String) (sId : Nat) : As × Nat :=
  match a.prg.syms.lookup name with
  | some id => (a, id)
  | none =>
      let id := a.prg.symHeap.length
      let p : sym := { sect := some sId, name := name, allocated := true }
      ({ a with prg :=
          { a.prg with
            symHeap := a.prg.symHeap ++ [p]
            syms := (name, id) :: a.prg.syms
            osyms := a.prg.osyms ++ [id]
            sectHeap := a.prg.sectHeap.set sId
              (let s := getSect a sId; { s with syms := s.syms ++ [id] }) } },
       id)

/-- Function `as.fsym` (asm.go): look a referenced name up; for non
variable/pointer kinds or an empty name return nothing; create a
provisional extern (type `sUND`, exported, no owning section) for an
unknown name. -/
def As.fsym (a : As) (typ : Nat) (name : String) : As × Option Nat :=
  if (typ ≠ aPTR ∧ typ ≠ aVAR) ∨ name = "" then (a, none)
  else
    match a.prg.syms.lookup name with
    | some id => (a, some id)
    | none =>
        let id := a.prg.symHeap.length
        let p : sym := { typ := sUND, name := name, exported := true }
        ({ a with prg :=
            { a.prg with
              symHeap := a.prg.symHeap ++ [p]
              usyms := a.prg.usyms ++ [id]
              syms := (name, id) :: a.prg.syms
              osyms := a.prg.osyms ++ [id] } },
         some id)

/-- Function `as.addglobal` (asm.go): resolve or create the symbol in the
current section and mark it exported. -/
def As.addglobal (a : As) (name : String) : As :=
  let r := a.gsym name a.sectId
  r.1.updSym r.2 fun p => { p with exported := true }

/-- Function `as.addbss` (asm.go): declare a bss variable.  Only an untyped
symbol may be declared; the allocated size is added to the block size
of the symbol's owning section (`p.sect.blocksize += size`), and the
symbol is appended to the bss section's block list.  A typed symbol is
a fatal duplicate declaration. -/
def As.addbss (a : As) (name : String) (size : Int) (allocated : Bool) :
    Except String As :=
  let r := a.gsym name bssId
  let a1 := r.1
  let id := r.2
  let p := getSym a1 id
  if p.typ = sNONE then
    let a2 := a1.updSym id fun q =>
      { q with typ := sBSS, size := size, allocated := allocated }
    let a3 :=
      if allocated then
        match p.sect with
        | some sId => a2.updSect sId fun s => { s with blocksize := s.blocksize + size }
        | none => a2
      else a2
    .ok (a3.updSect bssId fun s => { s with blocks := s.blocks ++ [id] })
  else
    .error (name ++ " already declared")

/-- Function `as.addlabel` (asm.go): declare a label in the current section.
Re-stating an existing label at the same offset is a silent success;
any other redeclaration is fatal; an untyped symbol becomes the label. -/
def As.addlabel (a : As) (name : String) (off : Int) (pc : Int) :
    Except String As :=
  let r := a.gsym name a.sectId
  let a1 := r.1
  let id := r.2
  let p := getSym a1 id
  if p.typ = sLABEL then
    if p.off ≠ off then .error (name ++ " already declared")
    else .ok a1
  else if p.typ = sNONE then
    .ok ((a1.updSym id fun q => { q with typ := sLABEL, off := off, pc := pc }).updSect
          a1.sectId fun s => { s with labels := s.labels ++ [id] })
  else
    .error (name ++ " already declared")

/-- Function `as.addrel` (asm.go): append a placeholder instruction with no
payload to the current section and record one relocation — holding the
section, the instruction, the byte size at call time and the position
counter — on both the program-wide and the section-local relocation
lists. -/
def As.addrel (a : As) (op : Nat) (addrs : List addr) : As :=
  let s := a.curSect
  let rid := a.prg.relocHeap.length
  let r : relocation :=
    { sectionId := a.sectId, instIdx := s.inst.length, off := s.size, pc := s.pc }
  let a1 := a.updSect a.sectId fun s =>
    { s with inst := s.inst ++ [{ op := op, addr := addrs }]
             relocs := s.relocs ++ [rid] }
  { a1 with prg :=
      { a1.prg with relocHeap := a1.prg.relocHeap ++ [r]
                    relocs := a1.prg.relocs ++ [rid] } }

/-- The reserved section names of `as.addsect`'s first switch. -/
def reservedSectName (name : String) : Prop :=
  name = ".text" ∨ name = ".data" ∨ name = ".rela.text" ∨ name = ".rela.data" ∨
  name = ".bss" ∨ name = ".shstrtab" ∨ name = ".strtab" ∨ name = ".symtab"

instance (name : String) : Decidable (reservedSectName name) := by
  unfold reservedSectName; infer_instance

/-- The section-type switch of `as.addsect`: the three accepted type
keywords and their tags. -/
def sectTypeOf : String → Option Nat
  | "progbits" => some stPROGBITS
  | "nobits" => some stNOBITS
  | "note" => some stNOTE
  | _ => none

/-- Function `as.addsect` (asm.go): select or create a user section.  Reserved
or empty names and unknown type keywords are fatal; an existing name
switches to that section, otherwise a new section is appended and made
current. -/
def As.addsect (a : As) (name flags typ : String) : Except String As :=
  if reservedSectName name then
    .error ("cannot define a pre-defined section " ++ name)
  else if name = "" then
    .error "no section name specified"
  else
    match sectTypeOf typ with
    | none => .error ("unknown section type " ++ typ)
    | some xtyp =>
        match a.prg.sects.find? (fun i => (getSect a i).name = name) with
        | some sId => .ok { a with sectId := sId }
        | none =>
            let sId := a.prg.sectHeap.length
            .ok { a with
                  prg := { a.prg with
                           sectHeap := a.prg.sectHeap ++ [newsection name flags xtyp]
                           sects := a.prg.sects ++ [sId] }
                  sectId := sId }

/-- Function `section.bytes` (asm.go): append a raw byte buffer as one
`opBYTES` instruction and grow the byte size by its length. -/
def sect.bytes (s : sect) (buf : List Nat) : sect :=
  { s with size := s.size + buf.length
           inst := s.inst ++ [{ op := opBYTES, code := buf }] }

/-- Function `as.alignpc` (asm.go): padding is computed from the current
section's *position counter* `pc` (Go `%` is truncated mod); the
padding buffer of fill bytes goes through `section.bytes`. -/
def As.alignpc (a : As) (align : Int) (value : Nat) : As :=
  let n := (align - Int.tmod a.curSect.pc align).tmod align
  let buf := List.replicate n.toNat (value % 256)
  a.updSect a.sectId fun s => sect.bytes s buf

/-- Function `section.strz` (asm.go): record a span and append the
NUL-terminated string bytes as one instruction. -/
def sect.strz (s : sect) (str : List Nat) : sect :=
  { s with strings := s.strings ++ [{ off := s.size, size := (str.length : Int) + 1, pc := s.pc }]
           size := s.size + str.length + 1
           inst := s.inst ++ [{ op := opSTRZ, code := str ++ [0] }] }

/-- Modelled from the spec: the amd64 encoder (`x86as`) and the ELF
writer (`genelf`) are external collaborators not present under `src/`;
they are abstracted as functions that either fail with a diagnostic or
succeed, the writer producing the object bytes.  Per the spec the
output is buffered and flushed to the sink exactly once, at the very
end, so the sink (second component) receives bytes only on a fully
successful run.  `Assemble` (asm.go) itself dispatches on the
architecture and OS tags, failing on unsupported values. -/
def Assemble (arch os_ : String)
    (x86as : prog → Except String prog)
    (genelf : prog → Except String (List Nat)) :
    Except String Unit × List Nat :=
  let p0 := newprog arch os_
  if arch = "amd64" then
    match x86as p0 with
    | .error e => (.error e, [])
    | .ok p1 =>
        if os_ = "linux" then
          match genelf p1 with
          | .error e => (.error e, [])
          | .ok outBytes => (.ok (), outBytes)
        else (.error ("unsupported os " ++ os_), [])
  else (.error ("unsupported arch " ++ arch), [])

/-- The initial assembler state over an empty amd64/linux program,
positioned at the text section (as the amd64 encoder starts). -/
def newAs : As := { prg := newprog "amd64" "linux", sectId := textId }

/-! ### Helper lemmas on heaps (lists read through `getD`) -/

theorem getD_append_length {α : Type _} (l : List α) (x d : α) :
    (l ++ [x]).getD l.length d = x := by
  rw [List.getD_eq_getElem?_getD, List.getElem?_append_right (Nat.le_refl _)]
  simp

theorem getD_set_self {α : Type _} (l : List α) (i : Nat) (x d : α)
    (h : i < l.length) : (l.set i x).getD i d = x := by
  rw [List.getD_eq_getElem?_getD, List.getElem?_set_self']
  rw [List.getElem?_eq_getElem h]
  rfl

theorem getD_set_ne {α : Type _} (l : List α) (i j : Nat) (x d : α)
    (h : i ≠ j) : (l.set i x).getD j d = l.getD j d := by
  rw [List.getD_eq_getElem?_getD, List.getElem?_set_ne h,
    ← List.getD_eq_getElem?_getD]

theorem length_set_eq {α : Type _} (l : List α) (i : Nat) (x : α) :
    (l.set i x).length = l.length := by simp

theorem leBytes_length (w n : Nat) : (leBytes w n).length = w := by
  induction w generalizing n with
  | zero => rfl
  | succ w ih => simp [leBytes, ih]

theorem fixedBytes_length (little : Bool) (w n : Nat) :
    (fixedBytes little w n).length = w := by
  cases little <;> simp [fixedBytes, leBytes_length]

/-- The padding arithmetic of `alignpc`: with a nonnegative position
and a positive alignment, Go's truncated mod agrees with Euclidean mod,
the padding lies in `[0, align)` and advances the position to a
multiple of the alignment. -/
theorem pad_arith (p align : Int) (h1 : 1 ≤ align) (h0 : 0 ≤ p) :
    (align - Int.tmod p align).tmod align = (align - p % align) % align ∧
    0 ≤ (align - p % align) % align ∧
    (align - p % align) % align < align ∧
    (p + (align - p % align) % align) % align = 0 := by
  have hpos : (0 : Int) < align := h1
  have hne : align ≠ 0 := ne_of_gt hpos
  have hq0 : 0 ≤ p % align := Int.emod_nonneg p hne
  have hqlt : p % align < align := Int.emod_lt_of_pos p hpos
  have htm1 : Int.tmod p align = p % align := Int.tmod_eq_emod h0 (le_of_lt hpos)
  have ht0 : 0 ≤ align - p % align := by omega
  have htm2 : (align - p % align).tmod align = (align - p % align) % align :=
    Int.tmod_eq_emod ht0 (le_of_lt hpos)
  refine ⟨by rw [htm1, htm2], Int.emod_nonneg _ hne, Int.emod_lt_of_pos _ hpos, ?_⟩
  calc (p + (align - p % align) % align) % align
      = (p % align + ((align - p % align) % align) % align) % align := by
        rw [Int.add_emod]
    _ = ((p % align) % align + (align - p % align) % align) % align := by
        rw [Int.emod_emod_of_dvd _ dvd_rfl, Int.emod_emod_of_dvd _ dvd_rfl]
    _ = (p % align + (align - p % align)) % align := by rw [← Int.add_emod]
    _ = align % align := by rw [show p % align + (align - p % align) = align from by ring]
    _ = 0 := Int.emod_self

/-- C1 (counterexample): from a section whose byte size is 10 (and
whose position counter is 0), `alignpc 16 0` appends no filler at all
and leaves the byte size at 10, not 16 — the padding is computed from
the position counter `pc`, not from the byte size as the claim states. -/
theorem alignpc_from_size_ten_cex :
    (getSect (newAs.updSect textId fun s =>
        sect.bytes s (List.replicate 10 0)) textId).size = 10 ∧
    (getSect ((newAs.updSect textId fun s =>
        sect.bytes s (List.replicate 10 0)).alignpc 16 0) textId).size = 10 := by
  decide

/-- C1 (amended): for every alignment ≥ 1 and a nonnegative position
counter, `alignpc align fill` computes
`padding = (align - (pc tmod align)) tmod align` from the section's
*position counter* `pc` (not its byte size), appends exactly that many
bytes of value `fill` as one raw-bytes (`opBYTES`) instruction via
`sect.bytes`, and grows the byte size by exactly the padding; the
padding lies in `[0, align)` and `pc + padding` is a multiple of the
alignment. -/
theorem alignpc_spec (a : As) (align : Int) (value : Nat)
    (h1 : 1 ≤ align) (h0 : 0 ≤ a.curSect.pc)
    (hs : a.sectId < a.prg.sectHeap.length) :
    0 ≤ (align - Int.tmod a.curSect.pc align).tmod align ∧
    (align - Int.tmod a.curSect.pc align).tmod align < align ∧
    (getSect (a.alignpc align value) a.sectId).size
      = a.curSect.size + (align - Int.tmod a.curSect.pc align).tmod align ∧
    (getSect (a.alignpc align value) a.sectId).inst
      = a.curSect.inst ++
        [{ op := opBYTES,
           code := List.replicate
             ((align - Int.tmod a.curSect.pc align).tmod align).toNat
             (value % 256) }] ∧
    Int.tmod (a.curSect.pc + (align - Int.tmod a.curSect.pc align).tmod align)
      align = 0 := by
  obtain ⟨he, hp0, hplt, hz⟩ := pad_arith a.curSect.pc align h1 h0
  have key : getSect (a.alignpc align value) a.sectId
      = sect.bytes a.curSect
          (List.replicate ((align - Int.tmod a.curSect.pc align).tmod align).toNat
            (value % 256)) := by
    simp only [As.alignpc, As.updSect, getSect, As.curSect]
    exact getD_set_self _ _ _ _ hs
  rw [he] at key ⊢
  have hcast : (((align - a.curSect.pc % align) % align).toNat : Int)
      = (align - a.curSect.pc % align) % align := Int.toNat_of_nonneg hp0
  refine ⟨hp0, hplt, ?_, ?_, ?_⟩
  · rw [key]; simp [sect.bytes, hcast]
  · rw [key]; simp [sect.bytes]
  · have hsum0 : 0 ≤ a.curSect.pc + (align - a.curSect.pc % align) % align := by
      omega
    rw [Int.tmod_eq_emod hsum0 (by omega)]
    exact hz

/-- C1 (witness): from a section whose position counter is 10,
`alignpc 16 0` grows the byte size by exactly 6. -/
theorem alignpc_spec_witness :
    (getSect ((newAs.updSect textId fun s =>
        { s with pc := 10 }).alignpc 16 0)
      (newAs.updSect textId fun s => { s with pc := 10 }).sectId).size = 6 := by
  have h := alignpc_spec (newAs.updSect textId fun s => { s with pc := 10 })
    16 0 (by decide) (by decide) (by decide)
  rw [h.2.2.1]
  decide

/-- C2: for any architecture tag other than "amd64" `Assemble` returns
exactly the diagnostic naming the unsupported architecture with an
empty sink; for "amd64" with any OS tag other than "linux" (and an
encoder that succeeds) it returns exactly the diagnostic naming the
unsupported OS; on every failing run the sink is empty, and a
non-empty sink implies a fully successful run whose bytes are the
writer's output delivered by the single final flush.  The encoder and
writer are spec-modelled external collaborators. -/
theorem assemble_spec (arch os_ : String) (x86as : prog → Except String prog)
    (genelf : prog → Except String (List Nat)) :
    (arch ≠ "amd64" →
       Assemble arch os_ x86as genelf = (.error ("unsupported arch " ++ arch), [])) ∧
    (arch = "amd64" → os_ ≠ "linux" →
       (Assemble arch os_ x86as genelf).2 = [] ∧
       ∀ p1, x86as (newprog arch os_) = .ok p1 →
         Assemble arch os_ x86as genelf = (.error ("unsupported os " ++ os_), [])) ∧
    (∀ e, (Assemble arch os_ x86as genelf).1 = .error e →
       (Assemble arch os_ x86as genelf).2 = []) ∧
    ((Assemble arch os_ x86as genelf).2 ≠ [] →
       (Assemble arch os_ x86as genelf).1 = .ok () ∧
       ∃ p1, x86as (newprog arch os_) = .ok p1 ∧
         genelf p1 = .ok (Assemble arch os_ x86as genelf).2) := by
  refine ⟨?_, ?_, ?_, ?_⟩
  · intro ha
    simp [Assemble, ha]
  · intro ha hos
    subst ha
    cases hx : x86as (newprog "amd64" os_) with
    | error e => exact ⟨by simp [Assemble, hx], fun p1 h => by simp [hx] at h⟩
    | ok p1 =>
        exact ⟨by simp [Assemble, hx, hos],
          fun q hq => by
            cases hq
            simp [Assemble, hx, hos]⟩
  · intro e h
    by_cases ha : arch = "amd64"
    · subst ha
      cases hx : x86as (newprog "amd64" os_) with
      | error e2 => simp [Assemble, hx]
      | ok p1 =>
          by_cases hos : os_ = "linux"
          · subst hos
            cases hg : genelf p1 with
            | error e2 => simp [Assemble, hx, hg]
            | ok outBytes => simp [Assemble, hx, hg] at h
          · simp [Assemble, hx, hos]
    · simp [Assemble, ha]
  · intro h
    by_cases ha : arch = "amd64"
    · subst ha
      cases hx : x86as (newprog "amd64" os_) with
      | error e2 => simp [Assemble, hx] at h
      | ok p1 =>
          by_cases hos : os_ = "linux"
          · subst hos
            cases hg : genelf p1 with
            | error e2 => simp [Assemble, hx, hg] at h
            | ok outBytes =>
                exact ⟨by simp [Assemble, hx, hg], p1, rfl,
                  by simp [Assemble, hx, hg]⟩
          · simp [Assemble, hx, hos] at h
    · simp [Assemble, ha] at h

/-- C2 (witness): the concrete unsupported architecture "arm" yields
exactly the diagnostic and an empty sink. -/
theorem assemble_spec_witness :
    Assemble "arm" "linux" Except.ok (fun _ => .ok [1])
      = (.error ("unsupported arch " ++ "arm"), []) :=
  (assemble_spec "arm" "linux" Except.ok (fun _ => .ok [1])).1 (by decide)

/-- A payload list without any unsupported-kind value encodes
successfully, to a buffer whose length is the sum of the per-value
widths. -/
theorem codeVals_ok_of_no_other (little : Bool) (vs : List EmitVal)
    (hno : ∀ d, EmitVal.vother d ∉ vs) :
    ∃ bytes, codeVals little vs = .ok bytes ∧
      bytes.length = (vs.map emitWidth).sum := by
  induction vs with
  | nil => exact ⟨[], rfl, rfl⟩
  | cons v vs ih =>
      have hv : ∀ d, EmitVal.vother d ∉ vs :=
        fun d hd => hno d (List.mem_cons_of_mem _ hd)
      obtain ⟨bytes, hb, hlen⟩ := ih hv
      cases v with
      | vnil => exact ⟨bytes, by simp [codeVals, hb], by simp [emitWidth, hlen]⟩
      | vbyte b =>
          exact ⟨b % 256 :: bytes, by simp [codeVals, hb, Except.map],
            by simp [emitWidth, hlen, Nat.add_comm]⟩
      | vint i =>
          exact ⟨(i.emod 256).toNat :: bytes, by simp [codeVals, hb, Except.map],
            by simp [emitWidth, hlen, Nat.add_comm]⟩
      | vu16 n =>
          exact ⟨fixedBytes little 2 n ++ bytes, by simp [codeVals, hb, Except.map],
            by simp [emitWidth, hlen, fixedBytes_length, Nat.add_comm]⟩
      | vu32 n =>
          exact ⟨fixedBytes little 4 n ++ bytes, by simp [codeVals, hb, Except.map],
            by simp [emitWidth, hlen, fixedBytes_length, Nat.add_comm]⟩
      | vu64 n =>
          exact ⟨fixedBytes little 8 n ++ bytes, by simp [codeVals, hb, Except.map],
            by simp [emitWidth, hlen, fixedBytes_length, Nat.add_comm]⟩
      | vother d => exact absurd (List.mem_cons_self _ _) (hno d)

/-- A payload list holding a value of an unsupported kind always fails
to encode. -/
theorem codeVals_error_of_other (little : Bool) (vs : List EmitVal) (d : String)
    (hd : EmitVal.vother d ∈ vs) :
    ∃ e, codeVals little vs = .error e := by
  induction vs with
  | nil => cases hd
  | cons v vs ih =>
      rcases List.mem_cons.mp hd with h | h
      · subst h
        exact ⟨_, rfl⟩
      · obtain ⟨e, he⟩ := ih h
        cases v with
        | vnil => exact ⟨e, by simpa [codeVals] using he⟩
        | vbyte b => exact ⟨e, by simp [codeVals, he, Except.map]⟩
        | vint i => exact ⟨e, by simp [codeVals, he, Except.map]⟩
        | vu16 n => exact ⟨e, by simp [codeVals, he, Except.map]⟩
        | vu32 n => exact ⟨e, by simp [codeVals, he, Except.map]⟩
        | vu64 n => exact ⟨e, by simp [codeVals, he, Except.map]⟩
        | vother d2 => exact ⟨_, rfl⟩

/-- C3 (counterexample): a Go `int` payload value — a kind that is
neither a single byte nor a fixed-width unsigned integer — does not
raise a fatal emit-type error as the claim states: `emit` succeeds and
appends the int truncated to a single byte (300 becomes 44). -/
theorem emit_int_payload_cex :
    (newAs.emit opNOP [] [EmitVal.vint 300]).toOption.isSome = true ∧
    (getSect ((newAs.emit opNOP [] [EmitVal.vint 300]).toOption.getD newAs)
        textId).inst = [{ op := opNOP, code := [44] }] ∧
    (getSect ((newAs.emit opNOP [] [EmitVal.vint 300]).toOption.getD newAs)
        textId).size = 1 := by
  decide

/-- C3 (amended): a call `emit op operands payload` encodes byte values
as-is, Go `int` values truncated to their low byte, skips nil values,
writes uint16/uint32/uint64 values in the target's byte order (2, 4
and 8 bytes respectively — the buffer length is the sum of the
per-value widths), and is fatal exactly on values of any other kind;
on success it appends exactly one instruction record
{op, operands, payload} to the current section and increases the
section's byte size by exactly the payload length. -/
theorem emit_spec (a : As) (op : Nat) (addrs : List addr) (vs : List EmitVal)
    (hs : a.sectId < a.prg.sectHeap.length) :
    (∀ bytes, codeVals a.prg.littleEndian vs = .ok bytes →
       ∃ a2, a.emit op addrs vs = .ok a2 ∧
         (getSect a2 a.sectId).inst
           = a.curSect.inst ++ [{ op := op, addr := addrs, code := bytes }] ∧
         (getSect a2 a.sectId).size = a.curSect.size + bytes.length) ∧
    ((∀ d, EmitVal.vother d ∉ vs) →
       ∃ bytes, codeVals a.prg.littleEndian vs = .ok bytes ∧
         bytes.length = (vs.map emitWidth).sum) ∧
    (∀ d, EmitVal.vother d ∈ vs → ∃ e, a.emit op addrs vs = .error e) := by
  refine ⟨?_, ?_, ?_⟩
  · intro bytes hb
    have key : getSect (a.updSect a.sectId fun s =>
        { s with inst := s.inst ++ [{ op := op, addr := addrs, code := bytes }]
                 size := s.size + bytes.length }) a.sectId
        = { a.curSect with
            inst := a.curSect.inst ++ [{ op := op, addr := addrs, code := bytes }]
            size := a.curSect.size + bytes.length } := by
      simp only [As.updSect, getSect, As.curSect]
      exact getD_set_self _ _ _ _ hs
    refine ⟨a.updSect a.sectId fun s =>
        { s with inst := s.inst ++ [{ op := op, addr := addrs, code := bytes }]
                 size := s.size + bytes.length }, ?_, ?_, ?_⟩
    · simp only [As.emit, hb]
    · rw [key]
    · rw [key]
  · exact codeVals_ok_of_no_other a.prg.littleEndian vs
  · intro d hd
    obtain ⟨e, he⟩ := codeVals_error_of_other a.prg.littleEndian vs d hd
    exact ⟨e, by simp only [As.emit, he]⟩

/-- C3 (witness): emitting a byte and a uint16 from the fresh state
grows the text section's byte size to 3. -/
theorem emit_spec_witness :
    (getSect ((newAs.emit opNOP [] [EmitVal.vbyte 7, EmitVal.vu16 258]).toOption.getD
        newAs) newAs.sectId).size = 3 := by
  obtain ⟨a2, h1, h2, h3⟩ :=
    (emit_spec newAs opNOP [] [EmitVal.vbyte 7, EmitVal.vu16 258] (by decide)).1
      [7, 2, 1] (by rfl)
  rw [h1]
  show (getSect a2 newAs.sectId).size = 3
  rw [h3]
  decide

/-- Looking a name up in the global map right after it was inserted
finds it. -/
theorem lookup_cons_self (name : String) (id : Nat) (l : List (String × Nat)) :
    List.lookup name ((name, id) :: l) = some id := by
  simp [List.lookup]

/-- Applying `gsym` to a present name returns the existing record and changes
nothing. -/
theorem gsym_some (a : As) (name : String) (sId id : Nat)
    (h : a.prg.syms.lookup name = some id) : a.gsym name sId = (a, id) := by
  simp [As.gsym, h]

/-- Applying `gsym` to an absent name: the explicit resulting state — one fresh
untyped symbol appended to the heap, attached to section `sId`,
inserted in the map and the declaration-order list. -/
theorem gsym_none (a : As) (name : String) (sId : Nat)
    (h : a.prg.syms.lookup name = none) :
    a.gsym name sId =
      ({ a with prg := { a.prg with
           symHeap := a.prg.symHeap ++
             [{ sect := some sId, name := name, allocated := true }]
           syms := (name, a.prg.symHeap.length) :: a.prg.syms
           osyms := a.prg.osyms ++ [a.prg.symHeap.length]
           sectHeap := a.prg.sectHeap.set sId
             { getSect a sId with
               syms := (getSect a sId).syms ++ [a.prg.symHeap.length] } } },
       a.prg.symHeap.length) := by
  simp [As.gsym, h]

/-- C7: the operation `declareOrGet` (`gsym`) is idempotent by name: a present name
returns the identical record with the whole state unchanged; an absent
name creates exactly one new untyped symbol, attaches it to the given
section's symbol list, and inserts it into the global map and the
declaration-order list (leaving the undefined list and all other
sections unchanged). -/
theorem gsym_spec (a : As) (name : String) (sId : Nat) :
    (∀ id, a.prg.syms.lookup name = some id → a.gsym name sId = (a, id)) ∧
    (a.prg.syms.lookup name = none → sId < a.prg.sectHeap.length →
       (a.gsym name sId).2 = a.prg.symHeap.length ∧
       getSym (a.gsym name sId).1 a.prg.symHeap.length
         = { sect := some sId, name := name, allocated := true } ∧
       (a.gsym name sId).1.prg.symHeap.length = a.prg.symHeap.length + 1 ∧
       (a.gsym name sId).1.prg.syms
         = (name, a.prg.symHeap.length) :: a.prg.syms ∧
       (a.gsym name sId).1.prg.syms.lookup name = some a.prg.symHeap.length ∧
       (a.gsym name sId).1.prg.osyms = a.prg.osyms ++ [a.prg.symHeap.length] ∧
       (a.gsym name sId).1.prg.usyms = a.prg.usyms ∧
       (getSect (a.gsym name sId).1 sId).syms
         = (getSect a sId).syms ++ [a.prg.symHeap.length] ∧
       ∀ j, j ≠ sId → getSect (a.gsym name sId).1 j = getSect a j) := by
  constructor
  · intro id h
    exact gsym_some a name sId id h
  · intro h hlt
    rw [gsym_none a name sId h]
    refine ⟨rfl, ?_, by simp, rfl, lookup_cons_self name _ _, rfl, rfl, ?_, ?_⟩
    · simp only [getSym]
      exact getD_append_length _ _ _
    · simp only [getSect]
      rw [getD_set_self _ _ _ _ hlt]
    · intro j hj
      simp only [getSect]
      rw [getD_set_ne _ _ _ _ _ (fun hx => hj hx.symm)]

/-- C7 (witness): declaring "v" twice via `gsym` returns the identical
record without a second creation: the second call leaves the state
untouched and returns the same id 0. -/
theorem gsym_spec_witness :
    (newAs.gsym "v" textId).2 = 0 ∧
    (newAs.gsym "v" textId).1.prg.symHeap.length = 1 ∧
    ((newAs.gsym "v" textId).1.gsym "v" textId)
      = ((newAs.gsym "v" textId).1, 0) := by
  have h := (gsym_spec newAs "v" textId).2 (by rfl) (by decide)
  refine ⟨h.1, h.2.2.1, ?_⟩
  exact (gsym_spec (newAs.gsym "v" textId).1 "v" textId).1 0 h.2.2.2.2.1

/-- C4: the operation `declareLabel` (`addlabel`) — re-stating an existing label at
the identical offset succeeds silently with the state entirely
unchanged (in particular no new symbol is created); a different offset
is a duplicate-declaration error; an untyped symbol (pre-existing, or
freshly created by name resolution) becomes the label: its type,
offset and position are set and it is appended to the current
section's label list. -/
theorem addlabel_spec (a : As) (name : String) (off pc : Int) (id : Nat) :
    (a.prg.syms.lookup name = some id → (getSym a id).typ = sLABEL →
      ((getSym a id).off = off → a.addlabel name off pc = .ok a) ∧
      ((getSym a id).off ≠ off →
        a.addlabel name off pc = .error (name ++ " already declared"))) ∧
    (a.prg.syms.lookup name = some id → (getSym a id).typ = sNONE →
     id < a.prg.symHeap.length → a.sectId < a.prg.sectHeap.length →
      ∃ a2, a.addlabel name off pc = .ok a2 ∧
        getSym a2 id = { getSym a id with typ := sLABEL, off := off, pc := pc } ∧
        (getSect a2 a.sectId).labels = (getSect a a.sectId).labels ++ [id] ∧
        a2.prg.symHeap.length = a.prg.symHeap.length ∧
        a2.prg.syms = a.prg.syms ∧
        a2.prg.osyms = a.prg.osyms ∧
        a2.prg.usyms = a.prg.usyms) ∧
    (a.prg.syms.lookup name = none → a.sectId < a.prg.sectHeap.length →
      ∃ a2, a.addlabel name off pc = .ok a2 ∧
        a2.prg.symHeap.length = a.prg.symHeap.length + 1 ∧
        getSym a2 a.prg.symHeap.length
          = { sect := some a.sectId, typ := sLABEL, name := name, off := off,
              pc := pc, allocated := true } ∧
        (getSect a2 a.sectId).labels
          = (getSect a a.sectId).labels ++ [a.prg.symHeap.length] ∧
        a2.prg.usyms = a.prg.usyms) := by
  refine ⟨?_, ?_, ?_⟩
  · intro hl ht
    refine ⟨fun ho => ?_, fun ho => ?_⟩
    · rw [As.addlabel, gsym_some a name a.sectId id hl]
      simp [ht, ho]
    · rw [As.addlabel, gsym_some a name a.sectId id hl]
      simp [ht, ho]
  · intro hl ht hid hs
    have heq : a.addlabel name off pc = .ok ((a.updSym id fun q =>
        { q with typ := sLABEL, off := off, pc := pc }).updSect a.sectId
        fun s => { s with labels := s.labels ++ [id] }) := by
      rw [As.addlabel, gsym_some a name a.sectId id hl]
      simp [ht, sNONE, sLABEL]
    refine ⟨_, heq, ?_, ?_, ?_, rfl, rfl, rfl⟩
    · simp only [As.updSect, As.updSym, getSym]
      rw [getD_set_self _ _ _ _ hid]
    · simp only [As.updSect, As.updSym, getSect]
      rw [getD_set_self _ _ _ _ hs]
    · simp [As.updSect, As.updSym]
  · intro hl hs
    have heq : a.addlabel name off pc = .ok
        (((a.gsym name a.sectId).1.updSym a.prg.symHeap.length fun q =>
            { q with typ := sLABEL, off := off, pc := pc }).updSect a.sectId
          fun s => { s with labels := s.labels ++ [a.prg.symHeap.length] }) := by
      rw [As.addlabel]
      simp [gsym_none a name a.sectId hl, getSym, getD_append_length,
        sNONE, sLABEL]
    refine ⟨_, heq, ?_, ?_, ?_, ?_⟩
    · simp [As.updSect, As.updSym, gsym_none a name a.sectId hl]
    · simp only [As.updSect, As.updSym, getSym, gsym_none a name a.sectId hl]
      rw [getD_set_self _ _ _ _ (by simp), getD_append_length]
    · simp only [As.updSect, As.updSym, getSect, gsym_none a name a.sectId hl]
      rw [getD_set_self _ _ _ _ (by simpa using hs),
        getD_set_self _ _ _ _ hs]
    · simp [As.updSect, As.updSym, gsym_none a name a.sectId hl]

/-- C4 (witness): after declaring label "L" at offset 16, re-declaring
it at 16 is a silent no-op and re-declaring it at 20 is a
duplicate-declaration error. -/
theorem addlabel_spec_witness :
    ((newAs.addlabel "L" 16 3).toOption.getD newAs).addlabel "L" 16 3
      = .ok ((newAs.addlabel "L" 16 3).toOption.getD newAs) ∧
    ((newAs.addlabel "L" 16 3).toOption.getD newAs).addlabel "L" 20 3
      = .error ("L" ++ " already declared") := by
  constructor
  · exact ((addlabel_spec ((newAs.addlabel "L" 16 3).toOption.getD newAs)
      "L" 16 3 0).1 (by decide) (by decide)).1 (by decide)
  · exact ((addlabel_spec ((newAs.addlabel "L" 16 3).toOption.getD newAs)
      "L" 20 3 0).1 (by decide) (by decide)).2 (by decide)

/-- Applying `addbss` to a name whose symbol already has a non-none type is a
duplicate-declaration error (and, the call failing, no new state is
produced). -/
theorem addbss_dup (b : As) (name : String) (size : Int) (alloc : Bool) (id : Nat)
    (hl : b.prg.syms.lookup name = some id) (ht : (getSym b id).typ ≠ sNONE) :
    b.addbss name size alloc = .error (name ++ " already declared") := by
  rw [As.addbss, gsym_some b name bssId id hl]
  simp [ht]

/-- C5 (counterexample): when the symbol was pre-created untyped in
the text section (by `addglobal` with the text section current), the
first `addbss` succeeds but adds the size to the *text* section's
cumulative block size and leaves bss's block size at 0 — refuting the
claim that the first call increases the bss section's cumulative block
size by the declared size. -/
theorem addbss_blocksize_cex :
    ((newAs.addglobal "v").addbss "v" 4 true).toOption.isSome = true ∧
    (getSect (((newAs.addglobal "v").addbss "v" 4 true).toOption.getD newAs)
        bssId).blocksize = 0 ∧
    (getSect (((newAs.addglobal "v").addbss "v" 4 true).toOption.getD newAs)
        textId).blocksize = 4 := by
  decide

/-- C5 (amended): the operation `declareBss` (`addbss`) for a fresh name creates the
bss symbol (type, size, allocated flag), appends it to the bss
section's block list, and adds `size` to the cumulative block size of
the symbol's *owning* section exactly when `allocated` — which is the
bss section whenever the symbol is created by this call; a second
`addbss` of the same name fails with a duplicate-declaration error
(the symbol then has a non-none type) and, failing, produces no state;
but for a name pre-created untyped in another owning section, the size
is added to that section's block size and bss's stays unchanged. -/
theorem addbss_spec (a : As) (name : String) (size : Int) (alloc : Bool) :
    (a.prg.syms.lookup name = none → bssId < a.prg.sectHeap.length →
      ∃ a2, a.addbss name size alloc = .ok a2 ∧
        getSym a2 a.prg.symHeap.length
          = { sect := some bssId, typ := sBSS, name := name, size := size,
              allocated := alloc } ∧
        (getSect a2 bssId).blocksize
          = (getSect a bssId).blocksize + (if alloc then size else 0) ∧
        (getSect a2 bssId).blocks
          = (getSect a bssId).blocks ++ [a.prg.symHeap.length] ∧
        ∀ size2 alloc2, a2.addbss name size2 alloc2
          = .error (name ++ " already declared")) ∧
    (∀ id, a.prg.syms.lookup name = some id → (getSym a id).typ ≠ sNONE →
      a.addbss name size alloc = .error (name ++ " already declared")) ∧
    (∀ id sId, a.prg.syms.lookup name = some id → (getSym a id).typ = sNONE →
      (getSym a id).sect = some sId → id < a.prg.symHeap.length →
      sId < a.prg.sectHeap.length → sId ≠ bssId → bssId < a.prg.sectHeap.length →
      ∃ a2, a.addbss name size alloc = .ok a2 ∧
        (getSect a2 sId).blocksize
          = (getSect a sId).blocksize + (if alloc then size else 0) ∧
        (getSect a2 bssId).blocksize = (getSect a bssId).blocksize) := by
  refine ⟨?_, ?_, ?_⟩
  · intro hl hb
    have heq : a.addbss name size alloc = .ok
        ((if alloc then
            (((a.gsym name bssId).1.updSym a.prg.symHeap.length fun q =>
              { q with typ := sBSS, size := size, allocated := alloc }).updSect
              bssId fun s => { s with blocksize := s.blocksize + size })
          else
            ((a.gsym name bssId).1.updSym a.prg.symHeap.length fun q =>
              { q with typ := sBSS, size := size, allocated := alloc })).updSect
          bssId fun s => { s with blocks := s.blocks ++ [a.prg.symHeap.length] }) := by
      rw [As.addbss]
      simp [gsym_none a name bssId hl, getSym, getD_append_length, sNONE]
    refine ⟨_, heq, ?_, ?_, ?_, ?_⟩
    · cases alloc <;>
        (simp only [As.updSect, As.updSym, getSym, gsym_none a name bssId hl,
          if_true, if_false, Bool.false_eq_true, reduceIte]
         rw [getD_set_self _ _ _ _ (by simp), getD_append_length])
    · cases alloc
      · simp only [As.updSect, As.updSym, getSect, gsym_none a name bssId hl,
          Bool.false_eq_true, reduceIte]
        rw [getD_set_self _ _ _ _ (by simpa using hb),
          getD_set_self _ _ _ _ hb]
        simp
      · simp only [As.updSect, As.updSym, getSect, gsym_none a name bssId hl,
          reduceIte]
        rw [getD_set_self _ _ _ _ (by simpa using hb),
          getD_set_self _ _ _ _ (by simpa using hb),
          getD_set_self _ _ _ _ hb]
    · cases alloc
      · simp only [As.updSect, As.updSym, getSect, gsym_none a name bssId hl,
          Bool.false_eq_true, reduceIte]
        rw [getD_set_self _ _ _ _ (by simpa using hb),
          getD_set_self _ _ _ _ hb]
      · simp only [As.updSect, As.updSym, getSect, gsym_none a name bssId hl,
          reduceIte]
        rw [getD_set_self _ _ _ _ (by simpa using hb),
          getD_set_self _ _ _ _ (by simpa using hb),
          getD_set_self _ _ _ _ hb]
    · refine fun size2 alloc2 => addbss_dup _ name size2 alloc2
        a.prg.symHeap.length ?_ ?_
      · cases alloc <;>
          simp [As.updSect, As.updSym, gsym_none a name bssId hl,
            lookup_cons_self]
      · cases alloc <;>
          (simp only [As.updSect, As.updSym, getSym, gsym_none a name bssId hl,
            if_true, if_false, Bool.false_eq_true, reduceIte]
           rw [getD_set_self _ _ _ _ (by simp), getD_append_length]
           simp [sBSS, sNONE])
  · intro id hl ht
    exact addbss_dup a name size alloc id hl ht
  · intro id sId hl ht hsect hid hsId hni hb
    have heq : a.addbss name size alloc = .ok
        ((if alloc then
            ((a.updSym id fun q =>
              { q with typ := sBSS, size := size, allocated := alloc }).updSect
              sId fun s => { s with blocksize := s.blocksize + size })
          else
            (a.updSym id fun q =>
              { q with typ := sBSS, size := size, allocated := alloc })).updSect
          bssId fun s => { s with blocks := s.blocks ++ [id] }) := by
      rw [As.addbss, gsym_some a name bssId id hl]
      simp [ht, hsect, sNONE]
    refine ⟨_, heq, ?_, ?_⟩
    · cases alloc
      · simp only [As.updSect, As.updSym, getSect, Bool.false_eq_true, reduceIte]
        rw [getD_set_ne _ _ _ _ _ (Ne.symm hni)]
        simp
      · simp only [As.updSect, As.updSym, getSect, reduceIte]
        rw [getD_set_ne _ _ _ _ _ (Ne.symm hni),
          getD_set_self _ _ _ _ hsId]
    · cases alloc
      · simp only [As.updSect, As.updSym, getSect, Bool.false_eq_true, reduceIte]
        rw [getD_set_self _ _ _ _ hb]
      · simp only [As.updSect, As.updSym, getSect, reduceIte]
        rw [getD_set_self _ _ _ _ (by simpa using hb),
          getD_set_ne _ _ _ _ _ hni]

/-- C5 (witness): declaring "v" as a fresh 4-byte allocated bss block
adds exactly 4 to bss's cumulative block size, and a repeated
declaration of "v" fails with the duplicate-declaration error. -/
theorem addbss_spec_witness :
    ((newAs.addbss "v" 4 true).toOption.getD newAs).addbss "v" 4 true
      = .error ("v" ++ " already declared") ∧
    (getSect ((newAs.addbss "v" 4 true).toOption.getD newAs) bssId).blocksize
      = (getSect newAs bssId).blocksize + (if true then 4 else 0) := by
  obtain ⟨a2, h1, h2, h3, h4, h5⟩ :=
    (addbss_spec newAs "v" 4 true).1 (by rfl) (by decide)
  have ha2 : (newAs.addbss "v" 4 true).toOption.getD newAs = a2 := by
    rw [h1]
    rfl
  exact ⟨by rw [ha2]; exact h5 4 true, by rw [ha2]; exact h3⟩

/-- C6: the operation `select` (`addsect`) fails on reserved names, on the empty
name, and on unknown type keywords; an existing user section of that
name simply becomes current (the state changes only in the current
section pointer, so no list grows); a fresh name appends exactly one
new section and makes it current. -/
theorem addsect_spec (a : As) (name flags typ : String) :
    (reservedSectName name →
       a.addsect name flags typ
         = .error ("cannot define a pre-defined section " ++ name)) ∧
    (name = "" → ¬ reservedSectName name →
       a.addsect name flags typ = .error "no section name specified") ∧
    (¬ reservedSectName name → name ≠ "" → sectTypeOf typ = none →
       a.addsect name flags typ = .error ("unknown section type " ++ typ)) ∧
    (∀ xtyp, ¬ reservedSectName name → name ≠ "" → sectTypeOf typ = some xtyp →
      (∀ sId, a.prg.sects.find? (fun i => (getSect a i).name = name) = some sId →
         a.addsect name flags typ = .ok { a with sectId := sId }) ∧
      (a.prg.sects.find? (fun i => (getSect a i).name = name) = none →
         ∃ a2, a.addsect name flags typ = .ok a2 ∧
           a2.prg.sects = a.prg.sects ++ [a.prg.sectHeap.length] ∧
           a2.sectId = a.prg.sectHeap.length ∧
           getSect a2 a2.sectId = newsection name flags xtyp ∧
           a2.prg.sects.length = a.prg.sects.length + 1)) := by
  refine ⟨?_, ?_, ?_, ?_⟩
  · intro h
    simp [As.addsect, h]
  · intro h hnr
    subst h
    simp [As.addsect, hnr]
  · intro hnr hne ht
    simp [As.addsect, hnr, hne, ht]
  · intro xtyp hnr hne ht
    constructor
    · intro sId hf
      simp [As.addsect, hnr, hne, ht, hf]
    · intro hf
      have heq : a.addsect name flags typ = .ok
          { a with
            prg := { a.prg with
                     sectHeap := a.prg.sectHeap ++ [newsection name flags xtyp]
                     sects := a.prg.sects ++ [a.prg.sectHeap.length] }
            sectId := a.prg.sectHeap.length } := by
        simp [As.addsect, hnr, hne, ht, hf]
      refine ⟨_, heq, rfl, rfl, ?_, by simp⟩
      simp only [getSect]
      exact getD_append_length _ _ _

/-- C6 (witness): re-selecting the user section "extra" returns to the
same section (only the current-section pointer is set; the section
list does not grow), and selecting the reserved name ".text" fails. -/
theorem addsect_spec_witness :
    newAs.addsect ".text" "ax" "progbits"
      = .error ("cannot define a pre-defined section " ++ ".text") ∧
    ((newAs.addsect "extra" "wa" "progbits").toOption.getD newAs).addsect
        "extra" "wa" "progbits"
      = .ok { (newAs.addsect "extra" "wa" "progbits").toOption.getD newAs with
              sectId := 3 } := by
  constructor
  · exact (addsect_spec newAs ".text" "ax" "progbits").1 (by decide)
  · exact ((addsect_spec ((newAs.addsect "extra" "wa" "progbits").toOption.getD
      newAs) "extra" "wa" "progbits").2.2.2 stPROGBITS (by decide) (by decide)
      (by rfl)).1 3 (by rfl)

/-- C8: the operation `addRelocatable` (`addrel`) appends exactly one zero-payload
placeholder instruction to the current section and records exactly one
relocation capturing that section, the index of the instruction just
appended, the section's byte size at call time and its position
counter; one and the same relocation record (the same heap id) is
appended to both the program-wide and the section-local relocation
lists, and the section's byte size does not change. -/
theorem addrel_spec (a : As) (op : Nat) (addrs : List addr)
    (hs : a.sectId < a.prg.sectHeap.length) :
    (getSect (a.addrel op addrs) a.sectId).inst
      = (getSect a a.sectId).inst ++ [{ op := op, addr := addrs, code := [] }] ∧
    (a.addrel op addrs).prg.relocHeap
      = a.prg.relocHeap ++
        [{ sectionId := a.sectId, instIdx := (getSect a a.sectId).inst.length,
           off := (getSect a a.sectId).size, pc := (getSect a a.sectId).pc }] ∧
    (a.addrel op addrs).prg.relocs = a.prg.relocs ++ [a.prg.relocHeap.length] ∧
    (getSect (a.addrel op addrs) a.sectId).relocs
      = (getSect a a.sectId).relocs ++ [a.prg.relocHeap.length] ∧
    (getSect (a.addrel op addrs) a.sectId).size = (getSect a a.sectId).size ∧
    getReloc (a.addrel op addrs) a.prg.relocHeap.length
      = { sectionId := a.sectId, instIdx := (getSect a a.sectId).inst.length,
          off := (getSect a a.sectId).size, pc := (getSect a a.sectId).pc } := by
  refine ⟨?_, ?_, ?_, ?_, ?_, ?_⟩
  · simp only [As.addrel, As.updSect, As.curSect, getSect]
    rw [getD_set_self _ _ _ _ hs]
  · simp only [As.addrel, As.updSect, As.curSect, getSect]
  · simp only [As.addrel, As.updSect, As.curSect, getSect]
  · simp only [As.addrel, As.updSect, As.curSect, getSect]
    rw [getD_set_self _ _ _ _ hs]
  · simp only [As.addrel, As.updSect, As.curSect, getSect]
    rw [getD_set_self _ _ _ _ hs]
  · simp only [As.addrel, As.updSect, As.curSect, getSect, getReloc]
    exact getD_append_length _ _ _

/-- C8 (witness): one `addrel` from the fresh state records relocation
id 0 on both the program-wide list and the text section's list, and
leaves the byte size unchanged. -/
theorem addrel_spec_witness :
    (newAs.addrel 5 []).prg.relocs
      = newAs.prg.relocs ++ [newAs.prg.relocHeap.length] ∧
    (getSect (newAs.addrel 5 []) newAs.sectId).relocs
      = (getSect newAs newAs.sectId).relocs ++ [newAs.prg.relocHeap.length] ∧
    (getSect (newAs.addrel 5 []) newAs.sectId).size
      = (getSect newAs newAs.sectId).size := by
  have h := addrel_spec newAs 5 [] (by decide)
  exact ⟨h.2.2.1, h.2.2.2.1, h.2.2.2.2.1⟩

/-- Applying `fsym` to a variable/pointer reference to an unknown, non-empty
name: the explicit resulting state — one provisional extern appended
to the heap, the undefined list, the map and the declaration-order
list. -/
theorem fsym_none (a : As) (typ : Nat) (name : String)
    (h : ¬((typ ≠ aPTR ∧ typ ≠ aVAR) ∨ name = ""))
    (hl : a.prg.syms.lookup name = none) :
    a.fsym typ name =
      ({ a with prg := { a.prg with
           symHeap := a.prg.symHeap ++
             [{ typ := sUND, name := name, exported := true }]
           usyms := a.prg.usyms ++ [a.prg.symHeap.length]
           syms := (name, a.prg.symHeap.length) :: a.prg.syms
           osyms := a.prg.osyms ++ [a.prg.symHeap.length] } },
       some a.prg.symHeap.length) := by
  rw [As.fsym, if_neg h]
  simp [hl]

/-- C9: the operation `reference` (`fsym`) returns nothing and changes no state for
operand kinds other than variable/pointer or for an empty name; for a
known name it returns the existing record unchanged; for an unknown
name it creates exactly one provisional extern — type undefined,
exported, no owning section — inserted into the global map, the
declaration-order list and the undefined-symbols list (the section
heap is untouched). -/
theorem fsym_spec (a : As) (typ : Nat) (name : String) :
    ((typ ≠ aPTR ∧ typ ≠ aVAR) ∨ name = "" → a.fsym typ name = (a, none)) ∧
    (¬((typ ≠ aPTR ∧ typ ≠ aVAR) ∨ name = "") →
      (∀ id, a.prg.syms.lookup name = some id → a.fsym typ name = (a, some id)) ∧
      (a.prg.syms.lookup name = none →
        (a.fsym typ name).2 = some a.prg.symHeap.length ∧
        getSym (a.fsym typ name).1 a.prg.symHeap.length
          = { typ := sUND, name := name, exported := true } ∧
        (a.fsym typ name).1.prg.symHeap.length = a.prg.symHeap.length + 1 ∧
        (a.fsym typ name).1.prg.usyms = a.prg.usyms ++ [a.prg.symHeap.length] ∧
        (a.fsym typ name).1.prg.osyms = a.prg.osyms ++ [a.prg.symHeap.length] ∧
        (a.fsym typ name).1.prg.syms.lookup name = some a.prg.symHeap.length ∧
        (a.fsym typ name).1.prg.sectHeap = a.prg.sectHeap)) := by
  constructor
  · intro h
    rw [As.fsym, if_pos h]
  · intro h
    constructor
    · intro id hl
      rw [As.fsym, if_neg h]
      simp [hl]
    · intro hl
      rw [fsym_none a typ name h hl]
      refine ⟨rfl, ?_, by simp, rfl, rfl, lookup_cons_self name _ _, rfl⟩
      simp only [getSym]
      exact getD_append_length _ _ _

/-- C9 (witness): a register-kind reference returns nothing with the
state unchanged; a variable-kind reference to the unknown name "x"
appends one id to the undefined-symbols list. -/
theorem fsym_spec_witness :
    newAs.fsym aREG "x" = (newAs, none) ∧
    (newAs.fsym aVAR "x").1.prg.usyms
      = newAs.prg.usyms ++ [newAs.prg.symHeap.length] := by
  refine ⟨(fsym_spec newAs aREG "x").1 (Or.inl ⟨by decide, by decide⟩), ?_⟩
  exact (((fsym_spec newAs aVAR "x").2 (by decide)).2 (by rfl)).2.2.2.1

/-- A successful `addlabel` never changes the undefined-symbols list. -/
theorem addlabel_usyms (b : As) (n : String) (o p : Int) (b2 : As)
    (hok : b.addlabel n o p = .ok b2) : b2.prg.usyms = b.prg.usyms := by
  rw [As.addlabel] at hok
  cases hlk : b.prg.syms.lookup n with
  | some id =>
      simp only [gsym_some b n b.sectId id hlk] at hok
      split at hok
      · split at hok
        · simp at hok
        · injection hok with h2
          subst h2
          rfl
      · split at hok
        · injection hok with h2
          subst h2
          simp [As.updSect, As.updSym]
        · simp at hok
  | none =>
      simp only [gsym_none b n b.sectId hlk] at hok
      split at hok
      · split at hok
        · simp at hok
        · injection hok with h2
          subst h2
          rfl
      · split at hok
        · injection hok with h2
          subst h2
          simp [As.updSect, As.updSym]
        · simp at hok

/-- A successful `addbss` never changes the undefined-symbols list. -/
theorem addbss_usyms (b : As) (n : String) (sz : Int) (al : Bool) (b2 : As)
    (hok : b.addbss n sz al = .ok b2) : b2.prg.usyms = b.prg.usyms := by
  rw [As.addbss] at hok
  cases hlk : b.prg.syms.lookup n with
  | some id =>
      simp only [gsym_some b n bssId id hlk] at hok
      split at hok
      · injection hok with h2
        subst h2
        cases hps : (getSym b id).sect <;>
          cases al <;> simp [hps, As.updSect, As.updSym]
      · simp at hok
  | none =>
      simp only [gsym_none b n bssId hlk] at hok
      split at hok
      · injection hok with h2
        subst h2
        cases al <;>
          simp [As.updSect, As.updSym, getSym, getD_append_length]
      · simp at hok

/-- C10 (counterexample): a symbol first created by a variable
reference (`fsym`) has type undefined-extern, not none — so a
subsequent `declareLabel` or `declareBss` of the same name does *not*
succeed as the claim states: both fail with the duplicate-declaration
diagnostic. -/
theorem extern_promotion_cex :
    (getSym (newAs.fsym aVAR "x").1 0).typ = sUND ∧
    (newAs.fsym aVAR "x").1.addlabel "x" 0 0
      = .error ("x" ++ " already declared") ∧
    (newAs.fsym aVAR "x").1.addbss "x" 4 true
      = .error ("x" ++ " already declared") :=
  ⟨rfl, rfl, rfl⟩

/-- C10 (amended): a symbol first created via `reference` (`fsym`) has
no owning section and carries type undefined-extern (not none), stays
on the undefined-symbols list and is exported; no later declaration
repairs this: `declareLabel` and `declareBss` for that name both fail
with the duplicate-declaration error (returning no new state), and no
successful `addlabel`/`addbss` ever removes anything from the
undefined-symbols list. -/
theorem extern_never_promoted (a : As) (typ : Nat) (name : String)
    (hk : typ = aPTR ∨ typ = aVAR) (hn : name ≠ "")
    (hm : a.prg.syms.lookup name = none) :
    getSym (a.fsym typ name).1 a.prg.symHeap.length
      = { typ := sUND, name := name, exported := true } ∧
    (a.fsym typ name).1.prg.usyms = a.prg.usyms ++ [a.prg.symHeap.length] ∧
    (∀ off pc, (a.fsym typ name).1.addlabel name off pc
      = .error (name ++ " already declared")) ∧
    (∀ sz al, (a.fsym typ name).1.addbss name sz al
      = .error (name ++ " already declared")) ∧
    (∀ (b b2 : As) (n : String) (o p : Int), b.addlabel n o p = Except.ok b2 →
      b2.prg.usyms = b.prg.usyms) ∧
    (∀ (b b2 : As) (n : String) (sz : Int) (al : Bool),
      b.addbss n sz al = Except.ok b2 → b2.prg.usyms = b.prg.usyms) := by
  have h : ¬((typ ≠ aPTR ∧ typ ≠ aVAR) ∨ name = "") := fun hc =>
    hc.elim (fun hand => hk.elim (fun h1 => hand.1 h1) (fun h2 => hand.2 h2)) hn
  have flk : (a.fsym typ name).1.prg.syms.lookup name
      = some a.prg.symHeap.length := by
    rw [fsym_none a typ name h hm]
    exact lookup_cons_self name _ _
  have fget : getSym (a.fsym typ name).1 a.prg.symHeap.length
      = { typ := sUND, name := name, exported := true } := by
    rw [fsym_none a typ name h hm]
    simp only [getSym]
    exact getD_append_length _ _ _
  refine ⟨fget, ?_, ?_, ?_, ?_, ?_⟩
  · rw [fsym_none a typ name h hm]
  · intro off pc
    rw [As.addlabel, gsym_some (a.fsym typ name).1 name
      (a.fsym typ name).1.sectId a.prg.symHeap.length flk]
    simp [fget, sUND, sLABEL, sNONE]
  · intro sz al
    rw [As.addbss, gsym_some (a.fsym typ name).1 name bssId
      a.prg.symHeap.length flk]
    simp [fget, sUND, sNONE]
  · exact fun b b2 n o p hok => addlabel_usyms b n o p b2 hok
  · exact fun b b2 n sz al hok => addbss_usyms b n sz al b2 hok

/-- C10 (witness): after referencing the unknown variable "x", it is
on the undefined list and a label declaration of "x" fails. -/
theorem extern_never_promoted_witness :
    (newAs.fsym aVAR "x").1.prg.usyms
      = newAs.prg.usyms ++ [newAs.prg.symHeap.length] ∧
    (newAs.fsym aVAR "x").1.addlabel "x" 16 3
      = .error ("x" ++ " already declared") := by
  have h := extern_never_promoted newAs aVAR "x" (Or.inr rfl) (by decide) rfl
  exact ⟨h.2.1, h.2.2.1 16 3⟩

end Gosubc
